import Mathlib

/-!
Shallow embedding of the arc-vision repository (src/arcvision/utils.py,
src/arcvision/controller.py, src/arcvision/processor.py) and proofs about the
behaviour its specification claims.

Numeric conventions: Python ints/floats are modelled as `ℚ` where the code only
does field arithmetic and comparisons, as `ℕ` for pixel values and counters, and
as `ℝ` where the code calls transcendental functions (`np.arctan`, Euclidean
distances).  numpy `uint32` accumulation is modelled with an explicit
`% 2 ^ 32`, and the `astype(np.uint8)` cast with `% 256`.
-/

namespace ArcVision

/-! ## Geometry utilities (src/arcvision/utils.py) -/

/-- A rectangle `(x, y, w, h)` as used throughout `utils.py`. -/
structure Rect where
  x : ℚ
  y : ℚ
  w : ℚ
  h : ℚ
deriving DecidableEq

/-- Embedding of `utils.intersecting(a, b, threshold=0.25)` (utils.py lines
134-143): overlap extent `dx`/`dy`, then the ratio test against the smaller
rectangle's area with a strict `>` comparison. -/
def intersecting (a b : Rect) (threshold : ℚ) : Bool :=
  let dx := min (a.x + a.w) (b.x + b.w) - max a.x b.x
  let dy := min (a.y + a.h) (b.y + b.h) - max a.y b.y
  if 0 ≤ dx ∧ 0 ≤ dy then
    let intArea := dx * dy
    let minArea := min (a.w * a.h) (b.w * b.h)
    if 0 < minArea ∧ threshold < intArea / minArea then true else false
  else false

/-- The claim's reading of `intersecting`: the rectangles overlap with
nonnegative extent, the smaller rectangle has positive area, and the overlap
area divided by the smaller rectangle's area strictly exceeds the threshold. -/
def intersecting_claim (a b : Rect) (threshold : ℚ) : Prop :=
  0 ≤ min (a.x + a.w) (b.x + b.w) - max a.x b.x ∧
  0 ≤ min (a.y + a.h) (b.y + b.h) - max a.y b.y ∧
  0 < min (a.w * a.h) (b.w * b.h) ∧
  (min (a.x + a.w) (b.x + b.w) - max a.x b.x) *
      (min (a.y + a.h) (b.y + b.h) - max a.y b.y) /
      min (a.w * a.h) (b.w * b.h) > threshold

/-! ## Controller settings state machine (src/arcvision/controller.py) -/

/-- Tags for the processor instances the Controller swaps in (`controller.py`
`_start_detection` / `update_settings`). -/
inductive ProcTag
  | backgroundProc
  | detectionProc
deriving DecidableEq

/-- The Controller's `self.settings` dictionary. -/
structure CtrlSettings where
  mode : String
  pause : Bool
deriving DecidableEq

/-- Controller state relevant to `update_settings`: current settings and the
active processor list. -/
structure CtrlState where
  settings : CtrlSettings
  processors : List ProcTag
deriving DecidableEq

/-- Controller defaults (`controller.py` line 49): `{'mode': 'background',
'pause': False}` and an empty processor list. -/
def ctrl_init : CtrlState := ⟨⟨"background", false⟩, []⟩

/-- A settings-update message; a missing key is `none` (`'mode' in settings`
checks in `update_settings`). -/
structure SettingsUpdate where
  mode : Option String
  pause : Option Bool

/-- Embedding of `Controller.update_settings` (controller.py lines 101-119):
`detection` and `background` rebuild the processor list; any other mode value
falls into the `else` branch, which restores the previous mode and leaves the
processors untouched; a `pause` key is stored verbatim. -/
def update_settings (st : CtrlState) (u : SettingsUpdate) : CtrlState :=
  let st1 :=
    match u.mode with
    | none => st
    | some m =>
      if m = "detection" then
        { st with settings := { st.settings with mode := m },
                  processors := [ProcTag.detectionProc] }
      else if m = "background" then
        { st with settings := { st.settings with mode := m },
                  processors := [ProcTag.backgroundProc] }
      else
        st
  match u.pause with
  | none => st1
  | some p => { st1 with settings := { st1.settings with pause := p } }

/-! ## Spatial calibration homography update (src/arcvision/processor.py) -/

/-- A 3x3 matrix with rational entries, standing for the numpy arrays the
Spatial Calibration Processor blends elementwise. -/
structure Mat3 where
  m11 : ℚ
  m12 : ℚ
  m13 : ℚ
  m21 : ℚ
  m22 : ℚ
  m23 : ℚ
  m31 : ℚ
  m32 : ℚ
  m33 : ℚ
deriving DecidableEq

/-- The 3x3 identity matrix (`np.identity(3)`). -/
def idMat3 : Mat3 := ⟨1, 0, 0, 0, 1, 0, 0, 0, 1⟩

/-- Elementwise `old * 0.6 + new * 0.4`, the numpy expression
`self._transform * 0.6 + t * 0.4` of `_update_homography`. -/
def matBlend (o n : Mat3) : Mat3 :=
  ⟨o.m11 * 0.6 + n.m11 * 0.4, o.m12 * 0.6 + n.m12 * 0.4, o.m13 * 0.6 + n.m13 * 0.4,
   o.m21 * 0.6 + n.m21 * 0.4, o.m22 * 0.6 + n.m22 * 0.4, o.m23 * 0.6 + n.m23 * 0.4,
   o.m31 * 0.6 + n.m31 * 0.4, o.m32 * 0.6 + n.m32 * 0.4, o.m33 * 0.6 + n.m33 * 0.4⟩

/-- State of `SpatialCalibrationProcessor` touched by `_update_homography`:
`_transform`, `_scaled_transform`, `_best_scaled_transform`, `_best_fit`,
`fit` and the `first` flag.  The flattened `_best_list`/`_best_inv_list`
caches (which involve `linalg.inv`) are not needed by any claim and are
omitted. -/
structure CalibState where
  transform : Mat3
  scaled_transform : Mat3
  best_scaled_transform : Mat3
  best_fit : ℚ
  fit : ℚ
  first : Bool
deriving DecidableEq

/-- State after `reset()` on a fresh processor with no persisted calibration
(processor.py lines 212-227, with `first = True` from `__init__` line 117):
identity transforms, `_best_fit = 0.01`, `fit = 100`. -/
def calib_reset : CalibState := ⟨idMat3, idMat3, idMat3, 0.01, 100, true⟩

/-- Embedding of `SpatialCalibrationProcessor._update_homography` (processor.py
lines 291-318) after its minimum-observations guard.  The two `cv2.findHomography`
calls are an external estimator; their joint outcome is the input `est`
(`none` when the solve fails), and the reprojection-error `fit` computed from
`cv2.perspectiveTransform` is likewise supplied as an input.  On the first
success the estimate is adopted outright, afterwards it is blended
`old * 0.6 + new * 0.4`; `fit` is recomputed in every call, and the best
snapshot is retained only when `fit < _best_fit`. -/
def update_homography (st : CalibState) (est : Option (Mat3 × Mat3)) (fit : ℚ) :
    CalibState :=
  let st1 :=
    match est with
    | none => st
    | some (t, ts) =>
      if st.first then
        { st with transform := t, scaled_transform := ts, first := false }
      else
        { st with transform := matBlend st.transform t,
                  scaled_transform := matBlend st.scaled_transform ts }
  let st2 := { st1 with fit := fit }
  if st2.fit < st2.best_fit then
    { st2 with best_scaled_transform := st2.scaled_transform, best_fit := st2.fit }
  else st2

/-! ## Detection scoring (src/arcvision/processor.py `_process_frame_view`) -/

/-- Per-template match data flowing into the scoring part of
`DetectionProcessor._process_frame_view` (processor.py lines 1184-1222):
`good` ratio-test matches, `des` region descriptors, the projected polygon's
`cv2.contourArea`/`cv2.arcLength`, the projected bounding box extents
(`dst_brect[2]`, `dst_brect[3]`), the candidate region extents (`bounds[2]`,
`bounds[3]`), and whether `cv2.findHomography` returned a matrix. -/
structure MatchData where
  good : ℕ
  des : ℕ
  contour_area : ℚ
  arc_length : ℚ
  projW : ℚ
  projH : ℚ
  boundsW : ℚ
  boundsH : ℚ
  homography_ok : Bool
deriving DecidableEq

/-- The composite score of `_process_frame_view` (processor.py lines 1208-1214),
including the `max(0.01, _)` clamps on area and perimeter. -/
def detection_score (w0 w1 w2 w3 w4 : ℚ) (m : MatchData) : ℚ :=
  let area := max 0.01 m.contour_area
  let perimter := max 0.01 m.arc_length
  (m.good : ℚ) / (m.des : ℚ) * w0 + perimter / area * w1 +
    (m.projW / m.boundsW - 1 + m.projH / m.boundsH - 1) * w2 +
    (if m.projW * m.projH < 5 then (1 : ℚ) else 0) * w3 + w4

/-- One template iteration of `_process_frame_view` from the ratio-test count
on (processor.py lines 1192-1222).  Output: the feature-set entry recorded for
this template (its score, or `none`), and whether `tracker.track` was invoked.
`min_match` is the `> self.min_match` gate and `doTrack` is `self.track`. -/
def process_template_view (min_match : ℕ) (w0 w1 w2 w3 w4 : ℚ) (doTrack : Bool)
    (m : MatchData) : Option ℚ × Bool :=
  if min_match < m.good then
    if m.homography_ok then
      let score := detection_score w0 w1 w2 w3 w4 m
      if 0 < score then (some score, doTrack) else (none, false)
    else (none, false)
  else (none, false)

/-- The score formula exactly as claim C1 words it, with the default weights
`[3, -1, -1, -10, 5]` substituted. -/
def claim_score (m : MatchData) : ℚ :=
  ((m.good : ℚ) / (m.des : ℚ)) * 3 + (m.arc_length / m.contour_area) * (-1) +
    ((m.projW / m.boundsW - 1) + (m.projH / m.boundsH - 1)) * (-1) +
    (if m.projW * m.projH < 5 then (1 : ℚ) else 0) * (-10) + 5

/-! ## Segment Processor threshold stage (src/arcvision/processor.py
`_filter_background`, lines 805-809) -/

/-- Scalar mean of a single-channel image, the first component of `cv2.mean`
(the remaining three components of its return tuple are zero). -/
def cv2_mean_scalar (pixels : List ℕ) : ℚ :=
  (pixels.sum : ℚ) / (pixels.length : ℚ)

/-- Embedding of `np.mean(cv2.mean(bg))`: `cv2.mean` returns the 4-tuple
`(m, 0, 0, 0)` for a single-channel image, and `np.mean` averages all four
components, yielding `m / 4`. -/
def np_mean_of_cv2_mean (pixels : List ℕ) : ℚ :=
  (cv2_mean_scalar pixels + 0 + 0 + 0) / 4

/-- Embedding of `cv2.subtract(bg, 255)`: saturating per-pixel subtraction
(for `uint8` pixels `p ≤ 255` every pixel becomes 0). -/
def cv2_subtract_255 (pixels : List ℕ) : List ℕ :=
  pixels.map (fun p => p - 255)

/-- The post-Otsu step of `SegmentProcessor._filter_background` (processor.py
lines 808-809): `if np.mean(cv2.mean(bg)) > 255 // 2: bg = cv2.subtract(bg, 255)`,
applied to the thresholded single-channel image. -/
def threshold_invert_stage (pixels : List ℕ) : List ℕ :=
  if 127 < np_mean_of_cv2_mean pixels then cv2_subtract_255 pixels else pixels

/-- The inversion the specification describes: each pixel `p` becomes
`255 - p`, so 255 becomes 0 and 0 becomes 255. -/
def invert255 (pixels : List ℕ) : List ℕ :=
  pixels.map (fun p => 255 - p)

/-! ## Background Processor (src/arcvision/processor.py lines 370-407)

The model is per pixel and channel: all numpy operations of
`BackgroundProcessor` act elementwise, so one `ℕ`-valued cell stands for any
pixel/channel position.  The `uint32` accumulator wraps modulo `2 ^ 32` and the
published background is cast to `uint8` (modulo 256). -/

/-- The numpy `uint32` modulus. -/
def UINT32_MOD : ℕ := 4294967296

/-- State of a `BackgroundProcessor` (one pixel/channel): frame counter,
accumulator (`none` while `avg_background is None`), published background
(`none` until first set), and the pause flag. -/
structure BgState where
  count : ℕ
  avg : Option ℕ
  background : Option ℕ
  paused : Bool
deriving DecidableEq

/-- Embedding of `BackgroundProcessor.reset()`. -/
def bg_reset (st : BgState) : BgState :=
  { st with count := 0, avg := none, paused := false }

/-- Embedding of `BackgroundProcessor.pause()`. -/
def bg_pause (st : BgState) : BgState := { st with paused := true }

/-- Embedding of `BackgroundProcessor.play()`. -/
def bg_play (st : BgState) : BgState := { st with paused := false }

/-- Embedding of `BackgroundProcessor.__init__`: `reset()` then `pause()`,
then `_background = background`. -/
def bg_mk (background : Option ℕ) : BgState :=
  { bg_pause (bg_reset ⟨0, none, none, false⟩) with background := background }

/-- Embedding of `BackgroundProcessor.process_frame` (processor.py lines
392-407) at one pixel/channel of value `v`: on the first frame the accumulator
is zero-initialized and the background becomes a copy of the frame; while
unpaused the frame is folded into the `uint32` accumulator, the counter is
bumped, and the background becomes `accumulator // max(1, count)` cast to
`uint8`. -/
def bg_process_frame (st : BgState) (v : ℕ) : BgState :=
  let st1 :=
    match st.avg with
    | none => { st with avg := some 0, background := some v }
    | some _ => st
  if st1.paused then st1
  else
    let a := (st1.avg.getD 0 + v) % UINT32_MOD
    let c := st1.count + 1
    { st1 with avg := some a, count := c,
               background := some (a / max 1 c % 256) }

/-- An operation on a `BackgroundProcessor`, for describing reachable
states. -/
inductive BgOp
  | frame (v : ℕ)
  | play
  | pause
  | reset

/-- Run a sequence of operations against a `BackgroundProcessor` state. -/
def bg_run (st : BgState) (ops : List BgOp) : BgState :=
  ops.foldl
    (fun s op =>
      match op with
      | BgOp.frame v => bg_process_frame s v
      | BgOp.play => bg_play s
      | BgOp.pause => bg_pause s
      | BgOp.reset => bg_reset s)
    st

/-- Frame values in an operation sequence are `uint8` (below 256). -/
def BgOpsValid (ops : List BgOp) : Prop :=
  ∀ op ∈ ops, ∀ v : ℕ, op = BgOp.frame v → v < 256

/-- The state reached after `play` followed by `n` frames of constant value
`v`, in closed form. -/
def bg_const_state (v n : ℕ) : BgState :=
  if n = 0 then ⟨0, none, none, false⟩
  else ⟨n, some (n * v % UINT32_MOD),
        some (n * v % UINT32_MOD / max 1 n % 256), false⟩

/-! ## Theorems for the Background Processor -/

/-- Helper: the accumulator of any reachable state is bounded by `255 * count`
when every processed frame is a `uint8` value. -/
theorem bg_run_avg_le (ops : List BgOp) (st : BgState)
    (hops : BgOpsValid ops) (hst : st.avg.getD 0 ≤ 255 * st.count) :
    (bg_run st ops).avg.getD 0 ≤ 255 * (bg_run st ops).count := by
  induction ops generalizing st with
  | nil => exact hst
  | cons op rest ih =>
    have hop : ∀ v : ℕ, op = BgOp.frame v → v < 256 :=
      hops op (List.mem_cons_self op rest)
    have hrest : BgOpsValid rest := fun o ho v he =>
      hops o (List.mem_cons_of_mem op ho) v he
    rcases op with v | _ | _ | _
    · apply ih _ hrest
      have hv : v < 256 := hop v rfl
      have hm1 : v % UINT32_MOD ≤ v := Nat.mod_le _ _
      rcases hav : st.avg with _ | a
      · by_cases hp : st.paused
        · simp [bg_process_frame, hav, hp]
        · simp only [bg_process_frame, hav, hp]
          simp
          omega
      · have hsta : st.avg.getD 0 = a := by rw [hav]; rfl
        rw [hsta] at hst
        have hm2 : (a + v) % UINT32_MOD ≤ a + v := Nat.mod_le _ _
        by_cases hp : st.paused <;> simp [bg_process_frame, hav, hp] <;> omega
    · exact ih _ hrest (by simpa [bg_play] using hst)
    · exact ih _ hrest (by simpa [bg_pause] using hst)
    · exact ih _ hrest (by simp [bg_reset])

/-- Helper: one constant frame advances the closed-form constant-feed state. -/
theorem bg_const_state_step (v n : ℕ) :
    bg_process_frame (bg_const_state v n) v = bg_const_state v (n + 1) := by
  rcases Nat.eq_zero_or_pos n with h0 | h0
  · subst h0
    simp [bg_const_state, bg_process_frame, Nat.mod_self]
  · have hne : n ≠ 0 := Nat.pos_iff_ne_zero.mp h0
    simp only [bg_const_state, if_neg hne, if_neg (Nat.succ_ne_zero n)]
    simp only [bg_process_frame, Option.getD_some, Bool.false_eq_true,
      if_false]
    have : (n * v % UINT32_MOD + v) % UINT32_MOD = (n + 1) * v % UINT32_MOD := by
      rw [Nat.mod_add_mod, Nat.succ_mul]
    simp [this]

/-- Helper: `play` followed by `n` constant frames yields the closed-form
state. -/
theorem bg_const_run (v n : ℕ) :
    bg_run (bg_mk none) (BgOp.play :: List.replicate n (BgOp.frame v)) =
      bg_const_state v n := by
  have hstart : bg_play (bg_mk none) = bg_const_state v 0 := by
    simp [bg_mk, bg_play, bg_pause, bg_reset, bg_const_state]
  have hrep : ∀ (m k : ℕ),
      bg_run (bg_const_state v k) (List.replicate m (BgOp.frame v)) =
        bg_const_state v (k + m) := by
    intro m
    induction m with
    | zero => intro k; simp [bg_run]
    | succ m ih =>
      intro k
      rw [List.replicate_succ]
      show bg_run (bg_process_frame (bg_const_state v k) v)
          (List.replicate m (BgOp.frame v)) = _
      rw [bg_const_state_step, ih]
      congr 1
      omega
  show bg_run (bg_play (bg_mk none)) (List.replicate n (BgOp.frame v)) = _
  rw [hstart, hrep]
  congr 1
  omega

/-- C6 counterexample: with `V = 255` the uint32 accumulator wraps after
16843010 frames, so feeding that many identical frames of value 255 from an
unpaused fresh processor leaves a background of 0, not 255, contradicting the
claim's "for every N ≥ 1". -/
theorem c6_background_constant_counterexample :
    (bg_run (bg_mk none)
        (BgOp.play :: List.replicate 16843010 (BgOp.frame 255))).background =
      some 0 ∧
    (bg_run (bg_mk none)
        (BgOp.play :: List.replicate 16843010 (BgOp.frame 255))).background ≠
      some 255 := by
  rw [bg_const_run]
  constructor
  · have h1 : 16843010 * 255 % UINT32_MOD = 254 := by norm_num [UINT32_MOD]
    have h2 : (254 : ℕ) / max 1 16843010 % 256 = 0 := by norm_num
    simp [bg_const_state, h1, h2]
  · have h1 : 16843010 * 255 % UINT32_MOD = 254 := by norm_num [UINT32_MOD]
    have h2 : (254 : ℕ) / max 1 16843010 % 256 = 0 := by norm_num
    simp [bg_const_state, h1, h2]

/-- C6 amended: while unpaused, after each `processFrame` call on a reachable
state the stored background equals `floor(accumulator / max(1, count))` (the
`uint8` cast never truncates because the accumulator of a reachable state is
at most `255 * count`); and for every constant `uint8` value `V` and every
`N ≥ 1` with `N * V < 2^32` (no accumulator wraparound), feeding `N` identical
frames of value `V` into a fresh unpaused processor yields a background of
exactly `V` after the first and after every subsequent frame. -/
theorem c6_background_averaging :
    (∀ (bg : Option ℕ) (ops : List BgOp) (v : ℕ), BgOpsValid ops → v < 256 →
      (bg_run (bg_mk bg) ops).paused = false →
      (bg_process_frame (bg_run (bg_mk bg) ops) v).background =
        some ((bg_process_frame (bg_run (bg_mk bg) ops) v).avg.getD 0 /
          max 1 (bg_process_frame (bg_run (bg_mk bg) ops) v).count)) ∧
    (∀ n v : ℕ, 1 ≤ n → v < 256 → n * v < UINT32_MOD →
      (bg_run (bg_mk none)
          (BgOp.play :: List.replicate n (BgOp.frame v))).background =
        some v) := by
  constructor
  · intro bg ops v hops hv hpause
    set st := bg_run (bg_mk bg) ops with hstdef
    have hbound : st.avg.getD 0 ≤ 255 * st.count := by
      rw [hstdef]
      exact bg_run_avg_le ops (bg_mk bg) hops (by simp [bg_mk, bg_pause, bg_reset])
    have key : ∀ A c : ℕ, A ≤ 255 * c + 255 →
        A / max 1 (c + 1) % 256 = A / max 1 (c + 1) := by
      intro A c hA
      have hmax : max 1 (c + 1) = c + 1 := by omega
      rw [hmax]
      refine Nat.mod_eq_of_lt ?_
      rw [Nat.div_lt_iff_lt_mul (Nat.succ_pos c)]
      omega
    rcases hav : st.avg with _ | a
    · have hA : (0 + v) % UINT32_MOD ≤ 255 * st.count + 255 := by
        have h1 := Nat.mod_le (0 + v) UINT32_MOD
        omega
      simp only [bg_process_frame, hav, hpause, Bool.false_eq_true, if_false,
        Option.getD_some]
      simp only [key _ _ hA]
    · have hsta : st.avg.getD 0 = a := by rw [hav]; rfl
      rw [hsta] at hbound
      have hA : (a + v) % UINT32_MOD ≤ 255 * st.count + 255 := by
        have h1 := Nat.mod_le (a + v) UINT32_MOD
        omega
      simp only [bg_process_frame, hav, hpause, Bool.false_eq_true, if_false,
        Option.getD_some]
      simp only [key _ _ hA]
  · intro n v hn hv hw
    rw [bg_const_run]
    have hne : n ≠ 0 := by omega
    have hmod : n * v % UINT32_MOD = n * v := Nat.mod_eq_of_lt hw
    have hmax : max 1 n = n := by omega
    have hdiv : n * v / n = v := by
      rw [Nat.mul_comm]
      exact Nat.mul_div_cancel v (by omega)
    simp [bg_const_state, hne, hmod, hmax, hdiv, Nat.mod_eq_of_lt hv]

/-- Witness for C6 at concrete inputs: after `play` and two frames of value 7,
one more frame of value 7 keeps the invariant background = accumulator
divided by count, and three constant frames of value 9 leave a background of
exactly 9. -/
theorem c6_background_averaging_witness :
    (bg_process_frame
        (bg_run (bg_mk none) [BgOp.play, BgOp.frame 7, BgOp.frame 7])
        7).background =
      some ((bg_process_frame
        (bg_run (bg_mk none) [BgOp.play, BgOp.frame 7, BgOp.frame 7])
        7).avg.getD 0 /
        max 1 (bg_process_frame
          (bg_run (bg_mk none) [BgOp.play, BgOp.frame 7, BgOp.frame 7])
          7).count) ∧
    (bg_run (bg_mk none)
        (BgOp.play :: List.replicate 3 (BgOp.frame 9))).background = some 9 := by
  constructor
  · exact c6_background_averaging.1 none [BgOp.play, BgOp.frame 7, BgOp.frame 7]
      7 (by intro op hop v he; subst he; simp at hop; omega) (by norm_num)
      (by decide)
  · exact c6_background_averaging.2 3 9 (by norm_num) (by norm_num)
      (by norm_num [UINT32_MOD])

/-- C10: a freshly constructed `BackgroundProcessor` is paused, so before the
first `play()` any sequence of `processFrame` calls leaves the counter at 0
and the accumulator all-zero; the only state change is that the very first
frame initializes the background to a copy of that frame, and with no frames
at all the state is exactly the constructed one. -/
theorem c10_background_paused_on_construction :
    (∀ bg : Option ℕ, (bg_mk bg).paused = true) ∧
    (∀ (bg : Option ℕ) (vs : List ℕ),
      (bg_run (bg_mk bg) (vs.map BgOp.frame)).count = 0 ∧
      (bg_run (bg_mk bg) (vs.map BgOp.frame)).paused = true ∧
      ((bg_run (bg_mk bg) (vs.map BgOp.frame)).avg = none ∨
        (bg_run (bg_mk bg) (vs.map BgOp.frame)).avg = some 0) ∧
      (∀ (v : ℕ) (rest : List ℕ), vs = v :: rest →
        (bg_run (bg_mk bg) (vs.map BgOp.frame)).background = some v) ∧
      (vs = [] → bg_run (bg_mk bg) (vs.map BgOp.frame) = bg_mk bg)) := by
  have hfix : ∀ (vs : List ℕ) (c v0 : ℕ) (b : Option ℕ),
      bg_run ⟨c, some 0, b, true⟩ (vs.map BgOp.frame) = ⟨c, some 0, b, true⟩ ∧
      v0 = v0 := by
    intro vs
    induction vs with
    | nil => intro c v0 b; exact ⟨rfl, rfl⟩
    | cons v rest ih =>
      intro c v0 b
      refine ⟨?_, rfl⟩
      show bg_run (bg_process_frame ⟨c, some 0, b, true⟩ v)
          (rest.map BgOp.frame) = _
      have hstep : bg_process_frame ⟨c, some 0, b, true⟩ v =
          ⟨c, some 0, b, true⟩ := by
        simp [bg_process_frame]
      rw [hstep]
      exact (ih c v0 b).1
  refine ⟨fun bg => rfl, ?_⟩
  intro bg vs
  rcases vs with _ | ⟨v, rest⟩
  · refine ⟨rfl, rfl, Or.inl rfl, ?_, fun _ => rfl⟩
    intro v rest h
    exact absurd h (by simp)
  · have hstep : bg_process_frame (bg_mk bg) v = ⟨0, some 0, some v, true⟩ := by
      simp [bg_mk, bg_pause, bg_reset, bg_process_frame]
    have hrun : bg_run (bg_mk bg) ((v :: rest).map BgOp.frame) =
        ⟨0, some 0, some v, true⟩ := by
      show bg_run (bg_process_frame (bg_mk bg) v) (rest.map BgOp.frame) = _
      rw [hstep]
      exact (hfix rest 0 0 (some v)).1
    rw [hrun]
    refine ⟨rfl, rfl, Or.inr rfl, ?_, by simp⟩
    intro v2 rest2 heq
    cases heq
    rfl

/-- Witness for C10 at concrete inputs: two frames into a fresh (paused)
processor leave count 0, a zero accumulator, and a background copied from the
first frame. -/
theorem c10_background_paused_witness :
    (bg_run (bg_mk none) ([7, 9].map BgOp.frame)).count = 0 ∧
    (bg_run (bg_mk none) ([7, 9].map BgOp.frame)).background = some 7 := by
  refine ⟨(c10_background_paused_on_construction.2 none [7, 9]).1, ?_⟩
  exact (c10_background_paused_on_construction.2 none [7, 9]).2.2.2.1 7 [9] rfl

/-! ## Theorems for the geometry utilities -/

/-- C8: `intersecting(a, b, threshold)` returns true if and only if the
rectangles overlap with nonnegative extent, the smaller rectangle has positive
area, and the overlap area divided by the smaller rectangle's area is strictly
greater than the threshold; in particular `(0,0,10,10)` versus `(5,5,10,10)` at
threshold 0.25 gives false (ratio exactly 0.25), while `(5,5,9,9)` gives
true. -/
theorem c8_intersection_threshold :
    (∀ (a b : Rect) (threshold : ℚ),
        intersecting a b threshold = true ↔ intersecting_claim a b threshold) ∧
    intersecting ⟨0, 0, 10, 10⟩ ⟨5, 5, 10, 10⟩ 0.25 = false ∧
    intersecting ⟨0, 0, 10, 10⟩ ⟨5, 5, 9, 9⟩ 0.25 = true := by
  refine ⟨?_, by norm_num [intersecting], by norm_num [intersecting]⟩
  intro a b th
  simp only [intersecting, intersecting_claim]
  constructor
  · intro h
    split_ifs at h with h1 h2
    exact ⟨h1.1, h1.2, h2.1, h2.2⟩
  · rintro ⟨hx, hy, hm, hr⟩
    rw [if_pos ⟨hx, hy⟩, if_pos ⟨hm, hr⟩]

/-! ## Theorems for the Controller settings state machine -/

/-- Helper: `update_settings` can only keep the previous mode or set it to
`detection` or `background`. -/
theorem update_settings_mode_cases (st : CtrlState) (u : SettingsUpdate) :
    (update_settings st u).settings.mode = st.settings.mode ∨
    (update_settings st u).settings.mode = "detection" ∨
    (update_settings st u).settings.mode = "background" := by
  rcases u with ⟨mo, pa⟩
  rcases mo with _ | m
  · rcases pa with _ | p <;> simp [update_settings]
  · rcases pa with _ | p <;> simp only [update_settings] <;>
      split_ifs with h1 h2 <;> simp_all

/-- Helper: folding any sequence of settings updates preserves the invariant
that the mode is `background` or `detection`. -/
theorem foldl_update_settings_mode (us : List SettingsUpdate) (st : CtrlState)
    (h : st.settings.mode = "background" ∨ st.settings.mode = "detection") :
    (us.foldl update_settings st).settings.mode = "background" ∨
    (us.foldl update_settings st).settings.mode = "detection" := by
  induction us generalizing st with
  | nil => exact h
  | cons u rest ih =>
    simp only [List.foldl_cons]
    apply ih
    rcases update_settings_mode_cases st u with h1 | h1 | h1
    · rw [h1]; exact h
    · right; exact h1
    · left; exact h1

/-- C9: `update_settings` treats every mode other than `detection` and
`background` (including the nominally valid `training`) as invalid, leaving the
mode and the processor list unchanged; starting from the default settings,
the reachable modes are exactly `background` and `detection`, and `training`
is never entered. -/
theorem c9_mode_validation :
    (∀ (st : CtrlState) (u : SettingsUpdate) (m : String),
        u.mode = some m → m ≠ "detection" → m ≠ "background" →
        (update_settings st u).settings.mode = st.settings.mode ∧
        (update_settings st u).processors = st.processors) ∧
    (∀ us : List SettingsUpdate,
        (us.foldl update_settings ctrl_init).settings.mode = "background" ∨
        (us.foldl update_settings ctrl_init).settings.mode = "detection") ∧
    (∀ us : List SettingsUpdate,
        (us.foldl update_settings ctrl_init).settings.mode ≠ "training") ∧
    (update_settings ctrl_init ⟨some "detection", none⟩).settings.mode =
      "detection" ∧
    ctrl_init.settings.mode = "background" := by
  have hinv : ∀ us : List SettingsUpdate,
      (us.foldl update_settings ctrl_init).settings.mode = "background" ∨
      (us.foldl update_settings ctrl_init).settings.mode = "detection" :=
    fun us => foldl_update_settings_mode us ctrl_init (Or.inl rfl)
  refine ⟨?_, hinv, ?_, by simp [update_settings], rfl⟩
  · intro st u m hm hd hb
    rcases u with ⟨mo, pa⟩
    cases hm
    rcases pa with _ | p <;>
      simp only [update_settings] <;> rw [if_neg hd, if_neg hb] <;> exact ⟨rfl, rfl⟩
  · intro us
    rcases hinv us with h | h <;> rw [h] <;> simp

/-- Witness for C9 at a concrete invalid update: applying
`{mode: "training"}` to the default state changes nothing. -/
theorem c9_mode_validation_witness :
    (update_settings ctrl_init ⟨some "training", none⟩).settings.mode =
      ctrl_init.settings.mode ∧
    (update_settings ctrl_init ⟨some "training", none⟩).processors =
      ctrl_init.processors :=
  c9_mode_validation.1 ctrl_init ⟨some "training", none⟩ "training" rfl
    (by simp) (by simp)

/-! ## Theorems for the spatial calibration homography update -/

/-- A 3x3 matrix with every entry equal to `q`, used as a distinguishable
test transform. -/
def matConst (q : ℚ) : Mat3 := ⟨q, q, q, q, q, q, q, q, q⟩

/-- C3 counterexample: starting from a fresh reset the retained best fit is
0.01, so a refit sequence with fits `[0.5, 0.2, 0.3, 0.05]` never updates the
best transform at all — in particular not at 0.5, 0.2 and 0.05 as the claim
states.  The best snapshot stays at the reset identity and the best fit stays
0.01 through the whole sequence. -/
theorem c3_best_fit_counterexample :
    (update_homography calib_reset (some (matConst 2, matConst 2))
        0.5).best_scaled_transform = idMat3 ∧
    (update_homography (update_homography (update_homography (update_homography
          calib_reset (some (matConst 2, matConst 2)) 0.5)
          (some (matConst 4, matConst 4)) 0.2)
          (some (matConst 8, matConst 8)) 0.3)
          (some (matConst 16, matConst 16)) 0.05).best_scaled_transform =
      idMat3 ∧
    (update_homography (update_homography (update_homography (update_homography
          calib_reset (some (matConst 2, matConst 2)) 0.5)
          (some (matConst 4, matConst 4)) 0.2)
          (some (matConst 8, matConst 8)) 0.3)
          (some (matConst 16, matConst 16)) 0.05).best_fit = 0.01 ∧
    matConst 2 ≠ idMat3 := by
  norm_num [update_homography, calib_reset, matBlend, matConst, idMat3]

/-- C3 amended: from a fresh reset the best transform is retained exactly at
refits whose fit improves on the current best, whose initial value is 0.01;
hence none of `[0.5, 0.2, 0.3, 0.05]` updates it, while for a sequence below
that bar, `[0.005, 0.002, 0.003, 0.0005]`, the best snapshot is updated exactly
at 0.005, 0.002 and 0.0005 and never at 0.003. -/
theorem c3_best_fit_retention :
    (update_homography calib_reset (some (matConst 2, matConst 2))
        (1 / 200)).best_scaled_transform =
      (update_homography calib_reset (some (matConst 2, matConst 2))
        (1 / 200)).scaled_transform ∧
    (update_homography calib_reset (some (matConst 2, matConst 2))
        (1 / 200)).best_fit = 1 / 200 ∧
    (update_homography (update_homography calib_reset
          (some (matConst 2, matConst 2)) (1 / 200))
          (some (matConst 4, matConst 4)) (1 / 500)).best_scaled_transform =
      (update_homography (update_homography calib_reset
          (some (matConst 2, matConst 2)) (1 / 200))
          (some (matConst 4, matConst 4)) (1 / 500)).scaled_transform ∧
    (update_homography (update_homography calib_reset
          (some (matConst 2, matConst 2)) (1 / 200))
          (some (matConst 4, matConst 4)) (1 / 500)).best_fit = 1 / 500 ∧
    (update_homography (update_homography (update_homography calib_reset
          (some (matConst 2, matConst 2)) (1 / 200))
          (some (matConst 4, matConst 4)) (1 / 500))
          (some (matConst 8, matConst 8)) (3 / 1000)).best_scaled_transform =
      (update_homography (update_homography calib_reset
          (some (matConst 2, matConst 2)) (1 / 200))
          (some (matConst 4, matConst 4)) (1 / 500)).best_scaled_transform ∧
    (update_homography (update_homography (update_homography calib_reset
          (some (matConst 2, matConst 2)) (1 / 200))
          (some (matConst 4, matConst 4)) (1 / 500))
          (some (matConst 8, matConst 8)) (3 / 1000)).best_scaled_transform ≠
      (update_homography (update_homography (update_homography calib_reset
          (some (matConst 2, matConst 2)) (1 / 200))
          (some (matConst 4, matConst 4)) (1 / 500))
          (some (matConst 8, matConst 8)) (3 / 1000)).scaled_transform ∧
    (update_homography (update_homography (update_homography calib_reset
          (some (matConst 2, matConst 2)) (1 / 200))
          (some (matConst 4, matConst 4)) (1 / 500))
          (some (matConst 8, matConst 8)) (3 / 1000)).best_fit = 1 / 500 ∧
    (update_homography (update_homography (update_homography (update_homography
          calib_reset (some (matConst 2, matConst 2)) (1 / 200))
          (some (matConst 4, matConst 4)) (1 / 500))
          (some (matConst 8, matConst 8)) (3 / 1000))
          (some (matConst 16, matConst 16)) (1 / 2000)).best_scaled_transform =
      (update_homography (update_homography (update_homography (update_homography
          calib_reset (some (matConst 2, matConst 2)) (1 / 200))
          (some (matConst 4, matConst 4)) (1 / 500))
          (some (matConst 8, matConst 8)) (3 / 1000))
          (some (matConst 16, matConst 16)) (1 / 2000)).scaled_transform ∧
    (update_homography (update_homography (update_homography (update_homography
          calib_reset (some (matConst 2, matConst 2)) (1 / 200))
          (some (matConst 4, matConst 4)) (1 / 500))
          (some (matConst 8, matConst 8)) (3 / 1000))
          (some (matConst 16, matConst 16)) (1 / 2000)).best_fit = 1 / 2000 := by
  norm_num [update_homography, calib_reset, matBlend, matConst, idMat3]

/-- C4: when the estimator returns a solution, the very first successful fit is
adopted outright (no blending) and clears the `first` flag; every later
successful fit blends `old * 0.6 + new * 0.4` elementwise over the 3x3
matrices, for both the transform and the scaled transform; a failed estimate
changes neither the transform nor the `first` flag. -/
theorem c4_homography_blend :
    (∀ (st : CalibState) (t ts : Mat3) (fit : ℚ), st.first = true →
        (update_homography st (some (t, ts)) fit).transform = t ∧
        (update_homography st (some (t, ts)) fit).scaled_transform = ts ∧
        (update_homography st (some (t, ts)) fit).first = false) ∧
    (∀ (st : CalibState) (t ts : Mat3) (fit : ℚ), st.first = false →
        (update_homography st (some (t, ts)) fit).transform =
          matBlend st.transform t ∧
        (update_homography st (some (t, ts)) fit).scaled_transform =
          matBlend st.scaled_transform ts) ∧
    (∀ o n : Mat3, matBlend o n =
        ⟨o.m11 * 0.6 + n.m11 * 0.4, o.m12 * 0.6 + n.m12 * 0.4,
         o.m13 * 0.6 + n.m13 * 0.4, o.m21 * 0.6 + n.m21 * 0.4,
         o.m22 * 0.6 + n.m22 * 0.4, o.m23 * 0.6 + n.m23 * 0.4,
         o.m31 * 0.6 + n.m31 * 0.4, o.m32 * 0.6 + n.m32 * 0.4,
         o.m33 * 0.6 + n.m33 * 0.4⟩) ∧
    (∀ (st : CalibState) (fit : ℚ),
        (update_homography st none fit).transform = st.transform ∧
        (update_homography st none fit).first = st.first) := by
  refine ⟨?_, ?_, fun o n => rfl, ?_⟩
  · intro st t ts fit h
    simp only [update_homography, h, if_true]
    split_ifs <;> exact ⟨rfl, rfl, rfl⟩
  · intro st t ts fit h
    simp only [update_homography, h, Bool.false_eq_true, if_false]
    split_ifs <;> exact ⟨rfl, rfl⟩
  · intro st fit
    simp only [update_homography]
    split_ifs <;> exact ⟨rfl, rfl⟩

/-- Witness for C4: from a fresh reset, the first successful fit is adopted
outright, and the second is blended with it elementwise. -/
theorem c4_homography_blend_witness :
    (update_homography calib_reset (some (matConst 2, matConst 3)) 5).transform =
      matConst 2 ∧
    (update_homography
        (update_homography calib_reset (some (matConst 2, matConst 3)) 5)
        (some (matConst 4, matConst 7)) 6).transform =
      matBlend (update_homography calib_reset
        (some (matConst 2, matConst 3)) 5).transform (matConst 4) := by
  exact ⟨(c4_homography_blend.1 calib_reset (matConst 2) (matConst 3) 5 rfl).1,
    (c4_homography_blend.2.1
      (update_homography calib_reset (some (matConst 2, matConst 3)) 5)
      (matConst 4) (matConst 7) 6
      (c4_homography_blend.1 calib_reset (matConst 2) (matConst 3) 5 rfl).2.2).1⟩

/-! ## Theorems for detection scoring -/

/-- C1: in the identification pass, for a template with more than 6 ratio-test
matches and a successful homography, the composite score equals the claim's
formula under the default weights `[3, -1, -1, -10, 5]`, and a match whose
score is not positive is recorded in the feature set as nothing and never
registered with the tracker. -/
theorem c1_detection_scoring :
    ∀ (m : MatchData) (doTrack : Bool),
      6 < m.good → m.homography_ok = true →
      (0.01 : ℚ) ≤ m.contour_area → (0.01 : ℚ) ≤ m.arc_length →
      detection_score 3 (-1) (-1) (-10) 5 m = claim_score m ∧
      process_template_view 6 3 (-1) (-1) (-10) 5 doTrack m =
        (if 0 < claim_score m then (some (claim_score m), doTrack)
         else (none, false)) := by
  intro m doTrack hg hh ha hp
  have hscore : detection_score 3 (-1) (-1) (-10) 5 m = claim_score m := by
    simp only [detection_score, claim_score, max_eq_right ha, max_eq_right hp]
    ring
  refine ⟨hscore, ?_⟩
  simp only [process_template_view, if_pos hg, hh, if_true, hscore]

/-- Concrete match data realizing the spec's synthetic example: 10 good
correspondences out of 20 region descriptors, perimeter/area = 0.1, matching
template/region box dimensions. -/
def c1_example : MatchData := ⟨10, 20, 1, 1 / 10, 10, 10, 10, 10, true⟩

/-- Witness for C1: on the synthetic example the recorded score is
`10/20*3 - 0.1 - 0 - 0 + 5 = 6.4 = 32/5` and the match is registered. -/
theorem c1_detection_scoring_witness :
    process_template_view 6 3 (-1) (-1) (-10) 5 true c1_example =
      (some (32 / 5), true) := by
  have h := c1_detection_scoring c1_example true (by norm_num [c1_example]) rfl
    (by norm_num [c1_example]) (by norm_num [c1_example])
  rw [h.2,
    if_pos (show (0 : ℚ) < claim_score c1_example by
      norm_num [claim_score, c1_example])]
  norm_num [claim_score, c1_example]

/-! ## Theorems for the Segment Processor threshold stage -/

/-- C7: the invert branch of `_filter_background` is dead code — for every
single-channel thresholded image (pixels at most 255) the stage passes the
image through unchanged, because `np.mean(cv2.mean(bg))` is the channel mean
divided by 4 (at most 63.75) and can never exceed 127; in particular an
all-255 image, whose channel mean 255 exceeds 127, is returned unchanged
rather than inverted, and even the branch body `cv2.subtract(bg, 255)` maps
every pixel to 0 instead of inverting. -/
theorem c7_threshold_invert_dead :
    (∀ pixels : List ℕ, (∀ p ∈ pixels, p ≤ 255) →
        threshold_invert_stage pixels = pixels) ∧
    threshold_invert_stage [255, 255, 255, 255] = [255, 255, 255, 255] ∧
    invert255 [255, 255, 255, 255] = [0, 0, 0, 0] ∧
    cv2_subtract_255 [255, 0] = [0, 0] ∧ invert255 [255, 0] = [0, 255] := by
  refine ⟨?_,
    by norm_num [threshold_invert_stage, np_mean_of_cv2_mean, cv2_mean_scalar],
    by norm_num [invert255], by norm_num [cv2_subtract_255],
    by norm_num [invert255]⟩
  intro l h
  have hmean : cv2_mean_scalar l ≤ 255 := by
    rcases Nat.eq_zero_or_pos l.length with h0 | h0
    · simp [cv2_mean_scalar, h0]
    · have hsum := List.sum_le_card_nsmul l 255 h
      have hsum2 : (l.sum : ℚ) ≤ 255 * l.length := by
        rw [smul_eq_mul] at hsum
        exact_mod_cast le_of_le_of_eq hsum (Nat.mul_comm _ _)
      have hlen : (0 : ℚ) < l.length := by exact_mod_cast h0
      rw [cv2_mean_scalar, div_le_iff₀ hlen]
      linarith
  have hb : ¬ (127 : ℚ) < np_mean_of_cv2_mean l := by
    rw [np_mean_of_cv2_mean]
    push_neg
    linarith
  simp [threshold_invert_stage, hb]

/-- Witness for C7 at the failing input: the all-255 thresholded image (channel
mean 255, which the claim says must be inverted) passes through unchanged. -/
theorem c7_threshold_invert_dead_witness :
    threshold_invert_stage [255, 255, 255, 255] = [255, 255, 255, 255] :=
  c7_threshold_invert_dead.1 [255, 255, 255, 255] (by decide)

/-! ## Spec-modelled geometry helpers

These helpers are called from `processor.py` (`from .utils import *`) but are
not present in the `utils.py` under `src/`, so they are modelled from the
specification. -/

/-- Modelled from the spec: `distance_pts`, the "line/point distance helper"
of the geometry utilities (§4.1), absent from `src/arcvision/utils.py`.
Euclidean distance between the two points of a pair (the spec's §4.12 speaks
of endpoints "within `[dist_th_lower, dist_th_upper]` pixels"). -/
noncomputable def distance_pts (p : (ℝ × ℝ) × (ℝ × ℝ)) : ℝ :=
  Real.sqrt ((p.1.1 - p.2.1) ^ 2 + (p.1.2 - p.2.2) ^ 2)

/-- Modelled from the spec: `line_from_endpoints`, the helper deriving a
line's slope and intercept from its two endpoints (§3 DetectedLine: "derived
slope/intercept"), absent from `src/arcvision/utils.py`. -/
noncomputable def line_from_endpoints (p : (ℝ × ℝ) × (ℝ × ℝ)) : ℝ × ℝ :=
  let slope := (p.2.2 - p.1.2) / (p.2.1 - p.1.1)
  (slope, p.1.2 - slope * p.1.1)

/-- Modelled from the spec: `percent_diff`, the "percent-difference" helper
of the geometry utilities (§4.1), absent from `src/arcvision/utils.py`;
classical percent difference, the difference relative to the mean of the two
values.  The claims proved below only depend on `percent_diff x x = 0`, which
holds for any reasonable definition. -/
noncomputable def percent_diff (a b : ℝ) : ℝ := (a - b) / ((a + b) / 2)

/-- Modelled from the spec: `val_in_range`, the "range-membership helper" of
the geometry utilities (§4.1), absent from `src/arcvision/utils.py`;
inclusive membership, matching the spec's closed-interval notation
"within `[dist_th_lower, dist_th_upper]` pixels". -/
def val_in_range (v lo hi : ℝ) : Prop := lo ≤ v ∧ v ≤ hi

/-- Helper fact: the percent difference of equal values is zero. -/
theorem percent_diff_self (x : ℝ) : percent_diff x x = 0 := by
  simp [percent_diff]

/-! ## Line Detection Processor lifecycle
(src/arcvision/processor.py `LineDetectionProcessor.detect_adjust_lines`,
lines 1354-1427) -/

/-- A stored line record: endpoints, derived slope/intercept, the per-round
`detected` flag, and the remaining-observation countdown. -/
structure LineRec where
  endpoints : (ℝ × ℝ) × (ℝ × ℝ)
  slope : ℝ
  intercept : ℝ
  detected : Bool
  observed : ℕ

/-- The Line Detection Processor's cross-round state: the confirmed line list
`_lines` and the staged pool `_stagedLines`. -/
structure LineState where
  lines : List LineRec
  staged : List LineRec

/-- The slope/intercept similarity test of `detect_adjust_lines` (processor.py
lines 1377 and 1398): both percent differences below 0.15 in absolute
value. -/
def similar_line (s1 i1 s2 i2 : ℝ) : Prop :=
  |percent_diff s1 s2| < 0.15 ∧ |percent_diff i1 i2| < 0.15

noncomputable instance (s1 i1 s2 i2 : ℝ) : Decidable (similar_line s1 i1 s2 i2) :=
  Classical.propDecidable _

/-- The confirmed-lines matching loop of `detect_adjust_lines` (processor.py
lines 1373-1389): find the first confirmed line whose slope/intercept
(recomputed from its stored endpoints) match the detection; replace it by the
detection if the detection is longer, else mark it detected and restart its
countdown.  Returns `none` when no confirmed line matches. -/
noncomputable def adjust_main (ep : (ℝ × ℝ) × (ℝ × ℝ)) (ds di : ℝ) (lim : ℕ) :
    List LineRec → Option (List LineRec)
  | [] => none
  | l :: rest =>
    let si := line_from_endpoints l.endpoints
    if similar_line si.1 si.2 ds di then
      some ((if distance_pts ep > distance_pts l.endpoints then
               ⟨ep, ds, di, true, lim⟩
             else { l with detected := true, observed := lim }) :: rest)
    else (adjust_main ep ds di lim rest).map (l :: ·)

/-- The staged-lines matching loop of `detect_adjust_lines` (processor.py
lines 1394-1405): find the first staged line whose stored slope/intercept
match the detection; replace it by the detection if the detection is longer,
else just mark it detected (staged lines do not decay, so the countdown is not
reset).  Returns `none` when no staged line matches. -/
noncomputable def adjust_staged (ep : (ℝ × ℝ) × (ℝ × ℝ)) (ds di : ℝ) (lim : ℕ) :
    List LineRec → Option (List LineRec)
  | [] => none
  | l :: rest =>
    if similar_line l.slope l.intercept ds di then
      some ((if distance_pts ep > distance_pts l.endpoints then
               ⟨ep, ds, di, true, lim⟩
             else { l with detected := true }) :: rest)
    else (adjust_staged ep ds di lim rest).map (l :: ·)

/-- The detection loop of `detect_adjust_lines` (processor.py lines
1366-1407), threading the confirmed list, staged pool and leftover list
through each detected endpoint pair in order. -/
noncomputable def process_detected (lim : ℕ) (cur staged leftover : List LineRec) :
    List ((ℝ × ℝ) × (ℝ × ℝ)) → List LineRec × List LineRec × List LineRec
  | [] => (cur, staged, leftover)
  | ep :: rest =>
    let sd := line_from_endpoints ep
    match adjust_main ep sd.1 sd.2 lim cur with
    | some cur2 => process_detected lim cur2 staged leftover rest
    | none =>
      match adjust_staged ep sd.1 sd.2 lim staged with
      | some staged2 => process_detected lim cur staged2 leftover rest
      | none =>
        process_detected lim cur staged
          (leftover ++ [⟨ep, sd.1, sd.2, false, lim⟩]) rest

/-- Embedding of `LineDetectionProcessor.detect_adjust_lines` (processor.py
lines 1354-1427) for one round, with the round's detected endpoint pairs as
input (`_detect_lines` is the cv2 contour pipeline and is treated as the
oracle producing them): reset every confirmed line's `detected` flag, run the
matching loops, then keep confirmed lines that were re-detected, decrement and
conditionally keep the ones that were not, promote re-detected staged lines,
and stage the leftovers. -/
noncomputable def detect_adjust_lines (lim : ℕ) (st : LineState)
    (detected : List ((ℝ × ℝ) × (ℝ × ℝ))) : LineState :=
  let cur0 := st.lines.map fun l => { l with detected := false }
  let res := process_detected lim cur0 st.staged [] detected
  let kept := res.1.filterMap fun l =>
    if l.detected then some l
    else if 0 < l.observed - 1 then some { l with observed := l.observed - 1 }
    else none
  { lines := kept ++ res.2.1.filter (fun l => l.detected),
    staged := res.2.2 }

/-- A line just staged from a single detection of endpoints `ep` (a leftover
entry with the default countdown 5). -/
noncomputable def staged_of (ep : (ℝ × ℝ) × (ℝ × ℝ)) : LineRec :=
  ⟨ep, (line_from_endpoints ep).1, (line_from_endpoints ep).2, false, 5⟩

/-- A confirmed line for endpoints `ep` with a full countdown, as produced by
a staged promotion or an every-round re-detection. -/
noncomputable def confirmed_of (ep : (ℝ × ℝ) × (ℝ × ℝ)) : LineRec :=
  ⟨ep, (line_from_endpoints ep).1, (line_from_endpoints ep).2, true, 5⟩

/-- A confirmed line for endpoints `ep` that has decayed to countdown `n`. -/
noncomputable def decayed_of (ep : (ℝ × ℝ) × (ℝ × ℝ)) (n : ℕ) : LineRec :=
  ⟨ep, (line_from_endpoints ep).1, (line_from_endpoints ep).2, false, n⟩

/-! ## Tracker Processor connectivity inference
(src/arcvision/processor.py `TrackerProcessor._connect_objects`, lines
551-636) -/

/-- A tracked object as `_connect_objects` sees it: identity, label, scaled
center, and the per-tick connectivity fields. -/
structure TrackView where
  id : ℕ
  label : String
  center_scaled : ℝ × ℝ
  connectedToPrimary : List (ℕ × String)
  connectedToSecondary : List (ℕ × String)
  connectedToSource : Bool

instance : Inhabited TrackView := ⟨⟨0, "", (0, 0), [], [], false⟩⟩

/-- A detected line as the Tracker consumes it: the two endpoints and the
stored slope. -/
structure ConnLine where
  ep1 : ℝ × ℝ
  ep2 : ℝ × ℝ
  slope : ℝ

/-- Embedding of `TrackerProcessor._unscale_point` (processor.py line 643):
`(point[0] * shape[1], point[1] * shape[0])` with `shape = (H, W, _)`. -/
def unscale_point (p : ℝ × ℝ) (H W : ℝ) : ℝ × ℝ := (p.1 * W, p.2 * H)

/-- The angular difference computed at processor.py lines 607-611: both the
line's slope and the slope between the two object centers (ordered by the
larger y first) are turned into angles `pi/2 + arctan(slope)` in `(0, pi)`,
and the absolute difference is taken. -/
noncomputable def pair_angle_diff (lineSlope : ℝ) (c1 c2 : ℝ × ℝ) : ℝ :=
  let lineAngle := Real.pi / 2 + Real.arctan lineSlope
  let rxrSlope :=
    if c1.2 > c2.2 then (line_from_endpoints (c1, c2)).1
    else (line_from_endpoints (c2, c1)).1
  let rxrAngle := Real.pi / 2 + Real.arctan rxrSlope
  |lineAngle - rxrAngle|

/-- The acceptance test of the inner `for j, t2` loop of `_connect_objects`
(processor.py lines 595-618): distinct ids, not already connected in either
direction, angular difference not above `pi/6`, and the far endpoint within
the distance window of the second object's center. -/
noncomputable def conn_target_ok (H W dl du : ℝ) (t1 t2 : TrackView)
    (endpoint : ℝ × ℝ) (lineSlope : ℝ) : Prop :=
  t1.id ≠ t2.id ∧
  ¬ ((t2.id, t2.label) ∈ t1.connectedToPrimary ∨
     (t2.id, t2.label) ∈ t1.connectedToSecondary) ∧
  ¬ (pair_angle_diff lineSlope (unscale_point t1.center_scaled H W)
      (unscale_point t2.center_scaled H W) > Real.pi / 6) ∧
  val_in_range (distance_pts (unscale_point t2.center_scaled H W, endpoint))
    dl du

noncomputable instance (H W dl du : ℝ) (t1 t2 : TrackView) (endpoint : ℝ × ℝ)
    (lineSlope : ℝ) : Decidable (conn_target_ok H W dl du t1 t2 endpoint lineSlope) :=
  Classical.propDecidable _

noncomputable instance (v lo hi : ℝ) : Decidable (val_in_range v lo hi) :=
  Classical.propDecidable _

/-- The inner `for j, t2` loop: index of the first tracked object accepted as
the other end of the connection, if any. -/
noncomputable def find_connection_target (H W dl du : ℝ) (tr : List TrackView)
    (i : ℕ) (endpoint : ℝ × ℝ) (lineSlope : ℝ) : Option ℕ :=
  (List.range tr.length).find? fun j =>
    decide (conn_target_ok H W dl du (tr.getD i default) (tr.getD j default)
      endpoint lineSlope)

/-- Recording a connection (processor.py lines 623-629): the object whose
unscaled center has the larger x (on a tie, the smaller y) becomes the
primary, appending to its `connectedToPrimary`, while the other appends to its
`connectedToSecondary`. -/
noncomputable def record_connection (H W : ℝ) (tr : List TrackView) (i j : ℕ) :
    List TrackView :=
  let t1 := tr.getD i default
  let t2 := tr.getD j default
  let c1 := unscale_point t1.center_scaled H W
  let c2 := unscale_point t2.center_scaled H W
  if c1.1 > c2.1 ∨ (c1.1 = c2.1 ∧ c1.2 < c2.2) then
    (tr.set i { t1 with connectedToPrimary :=
        t1.connectedToPrimary ++ [(t2.id, t2.label)] }).set j
      { t2 with connectedToSecondary :=
        t2.connectedToSecondary ++ [(t1.id, t1.label)] }
  else
    (tr.set j { t2 with connectedToPrimary :=
        t2.connectedToPrimary ++ [(t1.id, t1.label)] }).set i
      { t1 with connectedToSecondary :=
        t1.connectedToSecondary ++ [(t2.id, t2.label)] }

/-- The `for k, line` loop of `_connect_objects` for one tracked object `i`
(processor.py lines 565-636): skip already-consumed lines; require one
endpoint within the distance window of the object's center; take the farther
endpoint; if it is within the source window mark connected-to-source, consume
the line and stop (the `break` at line 591); otherwise search the other
objects, record at most one connection and consume the line. -/
noncomputable def connect_lines_loop (H W dl du slo shi : ℝ) (src : ℝ × ℝ)
    (i : ℕ) :
    List (ℕ × ConnLine) → List TrackView → List ℕ → List TrackView × List ℕ
  | [], tr, used => (tr, used)
  | (k, line) :: rest, tr, used =>
    if k ∈ used then connect_lines_loop H W dl du slo shi src i rest tr used
    else
      let t1 := tr.getD i default
      let center := unscale_point t1.center_scaled H W
      let d1 := distance_pts (center, line.ep1)
      let d2 := distance_pts (center, line.ep2)
      if val_in_range d1 dl du ∨ val_in_range d2 dl du then
        let endpoint := if d1 ≤ d2 then line.ep2 else line.ep1
        if val_in_range (distance_pts (src, endpoint)) slo shi then
          (tr.set i { t1 with connectedToSource := true }, k :: used)
        else
          match find_connection_target H W dl du tr i endpoint line.slope with
          | some j =>
            connect_lines_loop H W dl du slo shi src i rest
              (record_connection H W tr i j) (k :: used)
          | none => connect_lines_loop H W dl du slo shi src i rest tr used
      else connect_lines_loop H W dl du slo shi src i rest tr used

/-- Embedding of `TrackerProcessor._connect_objects` (processor.py lines
551-636): the distance thresholds `int(75/720*H)` / `int(150/720*H)` from
`__init__` (lines 448-449), the source position `(W, round(H*0.5))` and its
window `int(10/720*H)` / `int(200/720*H)` (lines 556-559), then the object
loop threading the consumed-lines list. -/
noncomputable def dist_th_lower (H : ℝ) : ℝ := (⌊(75 : ℝ) / 720 * H⌋ : ℤ)

noncomputable def dist_th_upper (H : ℝ) : ℝ := (⌊(150 : ℝ) / 720 * H⌋ : ℤ)

noncomputable def source_th_lower (H : ℝ) : ℝ := (⌊(10 : ℝ) / 720 * H⌋ : ℤ)

noncomputable def source_th_upper (H : ℝ) : ℝ := (⌊(200 : ℝ) / 720 * H⌋ : ℤ)

noncomputable def source_position (H W : ℝ) : ℝ × ℝ := (W, (round (H * 0.5) : ℤ))

noncomputable def connect_objects (H W : ℝ) (tr : List TrackView)
    (lines : List ConnLine) : List TrackView :=
  ((List.range tr.length).foldl
    (fun acc i =>
      connect_lines_loop H W (dist_th_lower H) (dist_th_upper H)
        (source_th_lower H) (source_th_upper H) (source_position H W) i
        lines.enum acc.1 acc.2)
    (tr, [])).1

/-- Resetting an object's connectivity fields, as `process_frame` does at the
start of every tick (processor.py lines 494-496). -/
def clear_connections (t : TrackView) : TrackView :=
  { t with connectedToPrimary := [], connectedToSecondary := [],
           connectedToSource := false }

@[simp] theorem clear_connections_id (t : TrackView) :
    (clear_connections t).id = t.id := rfl

@[simp] theorem clear_connections_label (t : TrackView) :
    (clear_connections t).label = t.label := rfl

@[simp] theorem clear_connections_center (t : TrackView) :
    (clear_connections t).center_scaled = t.center_scaled := rfl

@[simp] theorem clear_connections_primary (t : TrackView) :
    (clear_connections t).connectedToPrimary = [] := rfl

@[simp] theorem clear_connections_secondary (t : TrackView) :
    (clear_connections t).connectedToSecondary = [] := rfl

@[simp] theorem clear_connections_source (t : TrackView) :
    (clear_connections t).connectedToSource = false := rfl

/-- One tick of connectivity inference as `process_frame` drives it
(processor.py lines 494-496 and 542): reset every object's connection fields,
then run `_connect_objects`, which returns immediately when there are no
detected lines. -/
noncomputable def run_connect (H W : ℝ) (tr : List TrackView)
    (lines : List ConnLine) : List TrackView :=
  let tr0 := tr.map clear_connections
  if lines.isEmpty then tr0 else connect_objects H W tr0 lines

/-! ## Theorems for the Tracker Processor connectivity inference -/

/-- Helper: evaluate a Euclidean distance whose squared value is a perfect
square. -/
theorem distance_pts_eval {x1 y1 x2 y2 d : ℝ} (hd : 0 ≤ d)
    (h : (x1 - x2) ^ 2 + (y1 - y2) ^ 2 = d ^ 2) :
    distance_pts ((x1, y1), (x2, y2)) = d := by
  simp only [distance_pts]
  rw [h, Real.sqrt_sq hd]

/-- Tracked object at unscaled center (800, 360) in a 1280x720 frame. -/
noncomputable def track_ex1 : TrackView := ⟨1, "a", (5 / 8, 1 / 2), [], [], false⟩

/-- Tracked object at unscaled center (1100, 360) in a 1280x720 frame. -/
noncomputable def track_ex2 : TrackView :=
  ⟨2, "b", (55 / 64, 1 / 2), [], [], false⟩

/-- A horizontal detected line with endpoints (900, 360) and (1200, 360). -/
noncomputable def line_ex : ConnLine := ⟨(900, 360), (1200, 360), 0⟩

/-- C5 counterexample: both endpoints of the line satisfy the distance bounds
for the two objects and the angular difference is below pi/6, yet the objects
are never linked — the source check takes precedence, because the far endpoint
(1200, 360) is within the source window of the right-center edge (1280, 360):
the first object is marked connected-to-source, the line is consumed, and both
connection lists stay empty. -/
theorem c5_connectivity_counterexample :
    val_in_range
      (distance_pts (unscale_point track_ex1.center_scaled 720 1280, line_ex.ep1))
      (dist_th_lower 720) (dist_th_upper 720) ∧
    val_in_range
      (distance_pts (unscale_point track_ex2.center_scaled 720 1280, line_ex.ep2))
      (dist_th_lower 720) (dist_th_upper 720) ∧
    pair_angle_diff line_ex.slope (unscale_point track_ex1.center_scaled 720 1280)
      (unscale_point track_ex2.center_scaled 720 1280) < Real.pi / 6 ∧
    run_connect 720 1280 [track_ex1, track_ex2] [line_ex] =
      [{ clear_connections track_ex1 with connectedToSource := true },
       clear_connections track_ex2] := by
  have hc1 : unscale_point track_ex1.center_scaled 720 1280 = (800, 360) := by
    simp only [track_ex1, unscale_point]
    norm_num
  have hc2 : unscale_point track_ex2.center_scaled 720 1280 = (1100, 360) := by
    simp only [track_ex2, unscale_point]
    norm_num
  have hd11 : distance_pts ((800, 360), (900, 360)) = (100 : ℝ) :=
    distance_pts_eval (by norm_num) (by norm_num)
  have hd12 : distance_pts ((800, 360), (1200, 360)) = (400 : ℝ) :=
    distance_pts_eval (by norm_num) (by norm_num)
  have hd22 : distance_pts ((1100, 360), (1200, 360)) = (100 : ℝ) :=
    distance_pts_eval (by norm_num) (by norm_num)
  have hsrc : distance_pts ((1280, 360), (1200, 360)) = (80 : ℝ) :=
    distance_pts_eval (by norm_num) (by norm_num)
  have hdl : dist_th_lower 720 = 75 := by norm_num [dist_th_lower]
  have hdu : dist_th_upper 720 = 150 := by norm_num [dist_th_upper]
  have hsl : source_th_lower 720 = 10 := by norm_num [source_th_lower]
  have hsh : source_th_upper 720 = 200 := by norm_num [source_th_upper]
  have hsp : source_position 720 1280 = ((1280 : ℝ), (360 : ℝ)) := by
    simp only [source_position, Prod.mk.injEq]
    norm_num [round_eq]
  have hangle : pair_angle_diff (0 : ℝ) (800, 360) (1100, 360) < Real.pi / 6 := by
    simp only [pair_angle_diff, line_from_endpoints]
    norm_num [Real.arctan_zero]
    positivity
  have hclear1 : clear_connections track_ex1 = track_ex1 := rfl
  have hclear2 : clear_connections track_ex2 = track_ex2 := rfl
  have hloop0 : connect_lines_loop 720 1280 75 150 10 200 ((1280 : ℝ), (360 : ℝ))
      0 [(0, line_ex)] [track_ex1, track_ex2] [] =
      ([{ track_ex1 with connectedToSource := true }, track_ex2], [0]) := by
    simp only [connect_lines_loop]
    rw [if_neg (List.not_mem_nil 0)]
    simp only [List.getD_cons_zero, track_ex1, unscale_point, line_ex]
    norm_num
    rw [hd11, hd12]
    rw [if_pos (Or.inl (show val_in_range (100 : ℝ) 75 150 from
      ⟨by norm_num, by norm_num⟩) :
        val_in_range (100 : ℝ) 75 150 ∨ val_in_range (400 : ℝ) 75 150)]
    rw [if_pos (show (100 : ℝ) ≤ 400 by norm_num)]
    rw [hsrc]
    rw [if_pos (show val_in_range (80 : ℝ) 10 200 from ⟨by norm_num, by norm_num⟩)]
  have hloop1 : connect_lines_loop 720 1280 75 150 10 200 ((1280 : ℝ), (360 : ℝ))
      1 [(0, line_ex)] [{ track_ex1 with connectedToSource := true }, track_ex2]
      [0] =
      ([{ track_ex1 with connectedToSource := true }, track_ex2], [0]) := by
    simp only [connect_lines_loop]
    rw [if_pos (List.mem_singleton.mpr rfl)]
  refine ⟨?_, ?_, ?_, ?_⟩
  · rw [hc1, hdl, hdu]
    show val_in_range (distance_pts ((800, 360), (900, 360))) 75 150
    rw [hd11]
    exact ⟨by norm_num, by norm_num⟩
  · rw [hc2, hdl, hdu]
    show val_in_range (distance_pts ((1100, 360), (1200, 360))) 75 150
    rw [hd22]
    exact ⟨by norm_num, by norm_num⟩
  · rw [hc1, hc2]
    exact hangle
  · simp only [run_connect, List.map, hclear1, hclear2, List.isEmpty_cons,
      Bool.false_eq_true, if_false]
    simp only [connect_objects]
    rw [show List.range ([track_ex1, track_ex2] : List TrackView).length = [0, 1]
      from rfl]
    simp only [List.foldl_cons, List.foldl_nil]
    rw [show ([line_ex]).enum = [(0, line_ex)] from rfl]
    rw [hdl, hdu, hsl, hsh, hsp]
    rw [hloop0]
    simp only [hloop1]

/-- Helper: the center-to-center angle is symmetric in the two objects (the
slope of a segment does not depend on the endpoint order). -/
theorem pair_angle_diff_comm (s : ℝ) (c1 c2 : ℝ × ℝ) :
    pair_angle_diff s c2 c1 = pair_angle_diff s c1 c2 := by
  have hs : (line_from_endpoints (c1, c2)).1 = (line_from_endpoints (c2, c1)).1 := by
    simp only [line_from_endpoints]
    rw [show c1.2 - c2.2 = -(c2.2 - c1.2) by ring,
      show c1.1 - c2.1 = -(c2.1 - c1.1) by ring, neg_div_neg_eq]
  have h : (if c2.2 > c1.2 then (line_from_endpoints (c2, c1)).1
            else (line_from_endpoints (c1, c2)).1) =
           (if c1.2 > c2.2 then (line_from_endpoints (c1, c2)).1
            else (line_from_endpoints (c2, c1)).1) := by
    split_ifs <;> first | rfl | exact hs.symm | exact hs
  simp only [pair_angle_diff]
  rw [h]

/-- C5 (amended): for two distinct tracked objects and one detected line whose
near endpoint is within the distance window of the first object's center and
whose far endpoint is within the distance window of the second object's center
and outside the source window (the source check takes precedence and would
otherwise consume the line), the two objects are linked if and only if the
angular difference is at most pi/6 (the code skips only strictly larger
differences); when linked, the object whose center has the larger x (on a tie
the smaller y) is recorded as primary and the other as secondary, each list
receiving exactly one entry, so the consumed line establishes exactly one
connection in the tick; above pi/6 no connection is made. -/
theorem c5_connectivity_gate
    (H W : ℝ) (o1 o2 : TrackView) (l : ConnLine)
    (hid : o1.id ≠ o2.id)
    (h1 : val_in_range (distance_pts (unscale_point o1.center_scaled H W, l.ep1))
        (dist_th_lower H) (dist_th_upper H))
    (hfar1 : distance_pts (unscale_point o1.center_scaled H W, l.ep1) ≤
        distance_pts (unscale_point o1.center_scaled H W, l.ep2))
    (h2 : val_in_range (distance_pts (unscale_point o2.center_scaled H W, l.ep2))
        (dist_th_lower H) (dist_th_upper H))
    (hfar2 : distance_pts (unscale_point o2.center_scaled H W, l.ep2) <
        distance_pts (unscale_point o2.center_scaled H W, l.ep1))
    (hsrc2 : ¬ val_in_range (distance_pts (source_position H W, l.ep2))
        (source_th_lower H) (source_th_upper H))
    (hsrc1 : ¬ val_in_range (distance_pts (source_position H W, l.ep1))
        (source_th_lower H) (source_th_upper H)) :
    (pair_angle_diff l.slope (unscale_point o1.center_scaled H W)
        (unscale_point o2.center_scaled H W) ≤ Real.pi / 6 →
      run_connect H W [o1, o2] [l] =
        if (unscale_point o1.center_scaled H W).1 >
              (unscale_point o2.center_scaled H W).1 ∨
            ((unscale_point o1.center_scaled H W).1 =
                (unscale_point o2.center_scaled H W).1 ∧
              (unscale_point o1.center_scaled H W).2 <
                (unscale_point o2.center_scaled H W).2) then
          [{ clear_connections o1 with
              connectedToPrimary := [(o2.id, o2.label)] },
           { clear_connections o2 with
              connectedToSecondary := [(o1.id, o1.label)] }]
        else
          [{ clear_connections o1 with
              connectedToSecondary := [(o2.id, o2.label)] },
           { clear_connections o2 with
              connectedToPrimary := [(o1.id, o1.label)] }]) ∧
    (Real.pi / 6 < pair_angle_diff l.slope (unscale_point o1.center_scaled H W)
        (unscale_point o2.center_scaled H W) →
      run_connect H W [o1, o2] [l] =
        [clear_connections o1, clear_connections o2]) := by
  have hrun : run_connect H W [o1, o2] [l] =
      connect_objects H W [clear_connections o1, clear_connections o2] [l] := by
    simp only [run_connect, List.map, List.isEmpty_cons, Bool.false_eq_true,
      if_false]
  have hnotself : ¬ conn_target_ok H W (dist_th_lower H) (dist_th_upper H)
      (clear_connections o1) (clear_connections o1) l.ep2 l.slope :=
    fun hc => hc.1 rfl
  have hnotself2 : ¬ conn_target_ok H W (dist_th_lower H) (dist_th_upper H)
      (clear_connections o2) (clear_connections o2) l.ep1 l.slope :=
    fun hc => hc.1 rfl
  constructor
  · intro hang
    have hok : conn_target_ok H W (dist_th_lower H) (dist_th_upper H)
        (clear_connections o1) (clear_connections o2) l.ep2 l.slope := by
      refine ⟨hid, by simp, ?_, h2⟩
      exact not_lt.mpr hang
    have hfindA : find_connection_target H W (dist_th_lower H) (dist_th_upper H)
        [clear_connections o1, clear_connections o2] 0 l.ep2 l.slope =
        some 1 := by
      simp only [find_connection_target]
      rw [show List.range
          ([clear_connections o1, clear_connections o2] : List TrackView).length
          = [0, 1] from rfl]
      simp only [List.find?, List.getD_cons_zero, List.getD_cons_succ,
        decide_eq_false hnotself, decide_eq_true hok]
    have hrec : record_connection H W
        [clear_connections o1, clear_connections o2] 0 1 =
        if (unscale_point o1.center_scaled H W).1 >
              (unscale_point o2.center_scaled H W).1 ∨
            ((unscale_point o1.center_scaled H W).1 =
                (unscale_point o2.center_scaled H W).1 ∧
              (unscale_point o1.center_scaled H W).2 <
                (unscale_point o2.center_scaled H W).2) then
          [{ clear_connections o1 with
              connectedToPrimary := [(o2.id, o2.label)] },
           { clear_connections o2 with
              connectedToSecondary := [(o1.id, o1.label)] }]
        else
          [{ clear_connections o1 with
              connectedToSecondary := [(o2.id, o2.label)] },
           { clear_connections o2 with
              connectedToPrimary := [(o1.id, o1.label)] }] := by
      simp only [record_connection, List.getD_cons_zero, List.getD_cons_succ,
        clear_connections_center, clear_connections_id, clear_connections_label,
        clear_connections_primary, clear_connections_secondary]
      split_ifs with hxy <;>
        simp [List.set, clear_connections_primary, clear_connections_secondary]
    have hloopA : connect_lines_loop H W (dist_th_lower H) (dist_th_upper H)
        (source_th_lower H) (source_th_upper H) (source_position H W) 0
        [(0, l)] [clear_connections o1, clear_connections o2] [] =
        (record_connection H W
          [clear_connections o1, clear_connections o2] 0 1, [0]) := by
      simp only [connect_lines_loop]
      rw [if_neg (List.not_mem_nil 0)]
      simp only [List.getD_cons_zero, clear_connections_center]
      rw [if_pos (Or.inl h1 : _ ∨ _)]
      rw [if_pos hfar1]
      rw [if_neg hsrc2]
      rw [hfindA]
    have hloopA1 : connect_lines_loop H W (dist_th_lower H) (dist_th_upper H)
        (source_th_lower H) (source_th_upper H) (source_position H W) 1
        [(0, l)]
        (record_connection H W [clear_connections o1, clear_connections o2] 0 1)
        [0] =
        (record_connection H W
          [clear_connections o1, clear_connections o2] 0 1, [0]) := by
      simp only [connect_lines_loop]
      rw [if_pos (List.mem_singleton.mpr rfl)]
    rw [hrun]
    simp only [connect_objects]
    rw [show List.range
        ([clear_connections o1, clear_connections o2] : List TrackView).length
        = [0, 1] from rfl]
    simp only [List.foldl_cons, List.foldl_nil]
    rw [show ([l]).enum = [(0, l)] from rfl]
    rw [hloopA]
    dsimp only
    rw [hloopA1]
    dsimp only
    exact hrec
  · intro hang
    have hnok1 : ¬ conn_target_ok H W (dist_th_lower H) (dist_th_upper H)
        (clear_connections o1) (clear_connections o2) l.ep2 l.slope :=
      fun hc => hc.2.2.1 hang
    have hnok2 : ¬ conn_target_ok H W (dist_th_lower H) (dist_th_upper H)
        (clear_connections o2) (clear_connections o1) l.ep1 l.slope := by
      intro hc
      exact hc.2.2.1 (by
        rw [show pair_angle_diff l.slope
            (unscale_point (clear_connections o2).center_scaled H W)
            (unscale_point (clear_connections o1).center_scaled H W) =
            pair_angle_diff l.slope (unscale_point o1.center_scaled H W)
            (unscale_point o2.center_scaled H W) from
          pair_angle_diff_comm l.slope _ _]
        exact hang)
    have hfindB0 : find_connection_target H W (dist_th_lower H) (dist_th_upper H)
        [clear_connections o1, clear_connections o2] 0 l.ep2 l.slope = none := by
      simp only [find_connection_target]
      rw [show List.range
          ([clear_connections o1, clear_connections o2] : List TrackView).length
          = [0, 1] from rfl]
      simp only [List.find?, List.getD_cons_zero, List.getD_cons_succ,
        decide_eq_false hnotself, decide_eq_false hnok1]
    have hfindB1 : find_connection_target H W (dist_th_lower H) (dist_th_upper H)
        [clear_connections o1, clear_connections o2] 1 l.ep1 l.slope = none := by
      simp only [find_connection_target]
      rw [show List.range
          ([clear_connections o1, clear_connections o2] : List TrackView).length
          = [0, 1] from rfl]
      simp only [List.find?, List.getD_cons_zero, List.getD_cons_succ,
        decide_eq_false hnotself2, decide_eq_false hnok2]
    have hloopB : connect_lines_loop H W (dist_th_lower H) (dist_th_upper H)
        (source_th_lower H) (source_th_upper H) (source_position H W) 0
        [(0, l)] [clear_connections o1, clear_connections o2] [] =
        ([clear_connections o1, clear_connections o2], []) := by
      simp only [connect_lines_loop]
      rw [if_neg (List.not_mem_nil 0)]
      simp only [List.getD_cons_zero, clear_connections_center]
      rw [if_pos (Or.inl h1 : _ ∨ _)]
      rw [if_pos hfar1]
      rw [if_neg hsrc2]
      rw [hfindB0]
    have hloopB1 : connect_lines_loop H W (dist_th_lower H) (dist_th_upper H)
        (source_th_lower H) (source_th_upper H) (source_position H W) 1
        [(0, l)] [clear_connections o1, clear_connections o2] [] =
        ([clear_connections o1, clear_connections o2], []) := by
      simp only [connect_lines_loop]
      rw [if_neg (List.not_mem_nil 0)]
      simp only [List.getD_cons_succ, List.getD_cons_zero,
        clear_connections_center]
      rw [if_pos (Or.inr h2 : _ ∨ _)]
      rw [if_neg (not_le.mpr hfar2)]
      rw [if_neg hsrc1]
      rw [hfindB1]
    rw [hrun]
    simp only [connect_objects]
    rw [show List.range
        ([clear_connections o1, clear_connections o2] : List TrackView).length
        = [0, 1] from rfl]
    simp only [List.foldl_cons, List.foldl_nil]
    rw [show ([l]).enum = [(0, l)] from rfl]
    rw [hloopB]
    dsimp only
    rw [hloopB1]

/-- A horizontal detected line with endpoints (900, 360) and (1000, 360),
clear of the source window. -/
noncomputable def line_ex2 : ConnLine := ⟨(900, 360), (1000, 360), 0⟩

/-- Witness for C5 at a concrete configuration: objects at (800, 360) and
(1100, 360) in a 1280x720 frame with a horizontal line between them (angular
difference 0) are linked, with the larger-x object recorded as primary. -/
theorem c5_connectivity_gate_witness :
    run_connect 720 1280 [track_ex1, track_ex2] [line_ex2] =
      [{ clear_connections track_ex1 with
          connectedToSecondary := [(track_ex2.id, track_ex2.label)] },
       { clear_connections track_ex2 with
          connectedToPrimary := [(track_ex1.id, track_ex1.label)] }] := by
  have hc1 : unscale_point track_ex1.center_scaled 720 1280 = (800, 360) := by
    simp only [track_ex1, unscale_point]
    norm_num
  have hc2 : unscale_point track_ex2.center_scaled 720 1280 = (1100, 360) := by
    simp only [track_ex2, unscale_point]
    norm_num
  have hdl : dist_th_lower 720 = 75 := by norm_num [dist_th_lower]
  have hdu : dist_th_upper 720 = 150 := by norm_num [dist_th_upper]
  have hsl : source_th_lower 720 = 10 := by norm_num [source_th_lower]
  have hsh : source_th_upper 720 = 200 := by norm_num [source_th_upper]
  have hsp : source_position 720 1280 = ((1280 : ℝ), (360 : ℝ)) := by
    simp only [source_position, Prod.mk.injEq]
    norm_num [round_eq]
  have hdA : distance_pts ((800, 360), (900, 360)) = (100 : ℝ) :=
    distance_pts_eval (by norm_num) (by norm_num)
  have hdB : distance_pts ((800, 360), (1000, 360)) = (200 : ℝ) :=
    distance_pts_eval (by norm_num) (by norm_num)
  have hdC : distance_pts ((1100, 360), (1000, 360)) = (100 : ℝ) :=
    distance_pts_eval (by norm_num) (by norm_num)
  have hdD : distance_pts ((1100, 360), (900, 360)) = (200 : ℝ) :=
    distance_pts_eval (by norm_num) (by norm_num)
  have hdE : distance_pts ((1280, 360), (1000, 360)) = (280 : ℝ) :=
    distance_pts_eval (by norm_num) (by norm_num)
  have hdF : distance_pts ((1280, 360), (900, 360)) = (380 : ℝ) :=
    distance_pts_eval (by norm_num) (by norm_num)
  have hid : track_ex1.id ≠ track_ex2.id := by simp [track_ex1, track_ex2]
  have h1 : val_in_range
      (distance_pts (unscale_point track_ex1.center_scaled 720 1280, line_ex2.ep1))
      (dist_th_lower 720) (dist_th_upper 720) := by
    rw [hc1, hdl, hdu]
    show val_in_range (distance_pts ((800, 360), (900, 360))) 75 150
    rw [hdA]
    exact ⟨by norm_num, by norm_num⟩
  have hfar1 : distance_pts (unscale_point track_ex1.center_scaled 720 1280,
        line_ex2.ep1) ≤
      distance_pts (unscale_point track_ex1.center_scaled 720 1280,
        line_ex2.ep2) := by
    rw [hc1]
    show distance_pts ((800, 360), (900, 360)) ≤
      distance_pts ((800, 360), (1000, 360))
    rw [hdA, hdB]
    norm_num
  have h2 : val_in_range
      (distance_pts (unscale_point track_ex2.center_scaled 720 1280, line_ex2.ep2))
      (dist_th_lower 720) (dist_th_upper 720) := by
    rw [hc2, hdl, hdu]
    show val_in_range (distance_pts ((1100, 360), (1000, 360))) 75 150
    rw [hdC]
    exact ⟨by norm_num, by norm_num⟩
  have hfar2 : distance_pts (unscale_point track_ex2.center_scaled 720 1280,
        line_ex2.ep2) <
      distance_pts (unscale_point track_ex2.center_scaled 720 1280,
        line_ex2.ep1) := by
    rw [hc2]
    show distance_pts ((1100, 360), (1000, 360)) <
      distance_pts ((1100, 360), (900, 360))
    rw [hdC, hdD]
    norm_num
  have hsrc2 : ¬ val_in_range
      (distance_pts (source_position 720 1280, line_ex2.ep2))
      (source_th_lower 720) (source_th_upper 720) := by
    rw [hsp, hsl, hsh]
    show ¬ val_in_range (distance_pts ((1280, 360), (1000, 360))) 10 200
    rw [hdE]
    intro hr
    have := hr.2
    norm_num at this
  have hsrc1 : ¬ val_in_range
      (distance_pts (source_position 720 1280, line_ex2.ep1))
      (source_th_lower 720) (source_th_upper 720) := by
    rw [hsp, hsl, hsh]
    show ¬ val_in_range (distance_pts ((1280, 360), (900, 360))) 10 200
    rw [hdF]
    intro hr
    have := hr.2
    norm_num at this
  have hang : pair_angle_diff line_ex2.slope
      (unscale_point track_ex1.center_scaled 720 1280)
      (unscale_point track_ex2.center_scaled 720 1280) ≤ Real.pi / 6 := by
    rw [hc1, hc2]
    show pair_angle_diff line_ex2.slope (800, 360) (1100, 360) ≤ Real.pi / 6
    have hlt : pair_angle_diff (0 : ℝ) (800, 360) (1100, 360) < Real.pi / 6 := by
      simp only [pair_angle_diff, line_from_endpoints]
      norm_num [Real.arctan_zero]
      positivity
    exact le_of_lt hlt
  have h := (c5_connectivity_gate 720 1280 track_ex1 track_ex2 line_ex2 hid h1
    hfar1 h2 hfar2 hsrc2 hsrc1).1 hang
  rw [hc1, hc2] at h
  rw [h]
  rw [if_neg (by norm_num :
    ¬ (((800 : ℝ), (360 : ℝ)).1 > ((1100 : ℝ), (360 : ℝ)).1 ∨
       (((800 : ℝ), (360 : ℝ)).1 = ((1100 : ℝ), (360 : ℝ)).1 ∧
        ((800 : ℝ), (360 : ℝ)).2 < ((1100 : ℝ), (360 : ℝ)).2)))]

/-! ## Theorems for the Line Detection Processor -/

/-- Helper: a line's slope/intercept are always similar to themselves. -/
theorem similar_line_self (s i : ℝ) : similar_line s i s i := by
  constructor <;> · rw [percent_diff_self, abs_zero]; norm_num

/-- Helper: a staged line re-detected with identical endpoints is promoted to
the confirmed list at the end of the round. -/
theorem detect_round_promote (ep : (ℝ × ℝ) × (ℝ × ℝ)) :
    detect_adjust_lines 5 ⟨[], [staged_of ep]⟩ [ep] = ⟨[confirmed_of ep], []⟩ := by
  have hsim := similar_line_self (line_from_endpoints ep).1 (line_from_endpoints ep).2
  have hlen : ¬ distance_pts ep > distance_pts ep := lt_irrefl _
  simp only [detect_adjust_lines, process_detected, adjust_main, adjust_staged,
    staged_of, confirmed_of, if_pos hsim, if_neg hlen]
  rfl

/-- Helper: a confirmed line re-detected with identical endpoints keeps its
full countdown — one round is a fixed point. -/
theorem detect_round_fixpoint (ep : (ℝ × ℝ) × (ℝ × ℝ)) :
    detect_adjust_lines 5 ⟨[confirmed_of ep], []⟩ [ep] =
      ⟨[confirmed_of ep], []⟩ := by
  have hsim := similar_line_self (line_from_endpoints ep).1 (line_from_endpoints ep).2
  have hlen : ¬ distance_pts ep > distance_pts ep := lt_irrefl _
  simp only [detect_adjust_lines, process_detected, adjust_main, adjust_staged,
    staged_of, confirmed_of, if_pos hsim, if_neg hlen]
  rfl

/-- C2 counterexample: the claim says a line detected exactly once and never
again is dropped after exactly 5 further rounds without detection, but in the
code a single detection only stages the line (it never enters the confirmed
list), and the staged pool discards unmatched entries on the very next round:
after one round without detection neither the confirmed list nor the staged
pool holds it. -/
theorem c2_line_once_counterexample :
    (detect_adjust_lines 5 ⟨[], []⟩ [((0, 0), (100, 0))]).lines = [] ∧
    (detect_adjust_lines 5 ⟨[], []⟩ [((0, 0), (100, 0))]).staged =
      [staged_of ((0, 0), (100, 0))] ∧
    detect_adjust_lines 5
      (detect_adjust_lines 5 ⟨[], []⟩ [((0, 0), (100, 0))]) [] =
      ⟨[], []⟩ := by
  exact ⟨rfl, rfl, rfl⟩

/-- C2 (amended): a line detected exactly once enters the staged pool and is
discarded after exactly 1 further round without detection, never reaching the
confirmed list; a line detected in two consecutive rounds (staged, then
matched again) appears in the confirmed list at the end of the second round; a
confirmed line not re-detected decays by one per round and is dropped after
exactly 5 rounds without detection (present with countdown 4..1 after rounds
1..4, gone after round 5); and a confirmed line re-detected every round never
has its counter decremented and is never dropped. -/
theorem c2_line_hysteresis (ep : (ℝ × ℝ) × (ℝ × ℝ)) :
    detect_adjust_lines 5 ⟨[], []⟩ [ep] = ⟨[], [staged_of ep]⟩ ∧
    detect_adjust_lines 5 ⟨[], [staged_of ep]⟩ [] = ⟨[], []⟩ ∧
    detect_adjust_lines 5 ⟨[], [staged_of ep]⟩ [ep] = ⟨[confirmed_of ep], []⟩ ∧
    detect_adjust_lines 5 ⟨[confirmed_of ep], []⟩ [] = ⟨[decayed_of ep 4], []⟩ ∧
    detect_adjust_lines 5 ⟨[decayed_of ep 4], []⟩ [] = ⟨[decayed_of ep 3], []⟩ ∧
    detect_adjust_lines 5 ⟨[decayed_of ep 3], []⟩ [] = ⟨[decayed_of ep 2], []⟩ ∧
    detect_adjust_lines 5 ⟨[decayed_of ep 2], []⟩ [] = ⟨[decayed_of ep 1], []⟩ ∧
    detect_adjust_lines 5 ⟨[decayed_of ep 1], []⟩ [] = ⟨[], []⟩ ∧
    ∀ n : ℕ,
      (fun st => detect_adjust_lines 5 st [ep])^[n] ⟨[confirmed_of ep], []⟩ =
        ⟨[confirmed_of ep], []⟩ := by
  refine ⟨rfl, rfl, detect_round_promote ep, rfl, rfl, rfl, rfl, rfl, ?_⟩
  intro n
  induction n with
  | zero => rfl
  | succ n ih =>
    rw [Function.iterate_succ_apply, detect_round_fixpoint ep, ih]

end ArcVision
